import Mathlib

/-
Verification of the hierarchical probabilistic U-Net
(platipy/imaging/cnn/hierarchical_prob_unet.py).

The Python source is shallowly embedded: 4-axis tensors become nested lists
over an ordered field `α`; the transcendental functions `torch.exp` /
`torch.log` become fields of an `Ops` record (the concrete claims about the
Kullback-Leibler computation are instantiated at `ℝ` with `Real.exp` /
`Real.log`); Python exceptions (IndexError on list indexing, AttributeError
on a missing module attribute, NotImplementedError in `loss`) become
`Except String`; the global random generator becomes an explicit stream of
draw tensors together with a draw counter; the memoized module state of
`HierarchicalProbabilisticUnet` (`_cache`, `_q_sample`, ...) becomes an
explicit record that the embedded `forward` threads through.
-/

set_option autoImplicit false
set_option maxRecDepth 200000

universe u

variable {α : Type} {β : Type} {γ : Type} {δ : Type} {ε : Type}

/-- Explicit bind for `Except`, used to model Python statements that can
raise: the first raised exception aborts the rest of the computation. -/
def ebind : Except ε β → (β → Except ε γ) → Except ε γ
  | Except.error e, _ => Except.error e
  | Except.ok x, f => f x

/-- `true` iff the computation did not raise. -/
def eIsOk : Except ε β → Bool
  | Except.error _ => false
  | Except.ok _ => true

/-- Lift a Python indexing operation (`list[i]`): `none` raises IndexError. -/
def elift (msg : ε) : Option β → Except ε β
  | none => Except.error msg
  | some x => Except.ok x

/-- Run an effectful body over a list, aborting at the first exception
(the shape of a Python `for` loop that builds a list and may raise). -/
def emapM : List β → (β → Except ε γ) → Except ε (List γ)
  | [], _ => Except.ok []
  | x :: xs, f =>
    ebind (f x) fun y => ebind (emapM xs f) fun ys => Except.ok (y :: ys)

/-- Python `enumerate` starting at `i`. -/
def enumAux (i : ℕ) : List β → List (ℕ × β)
  | [] => []
  | x :: xs => (i, x) :: enumAux (i + 1) xs

/-- Python `range(a, b)`. -/
def pyRange (a b : ℕ) : List ℕ := List.range' a (b - a)

/-- Sum `f 0 + ... + f (n-1)`. -/
def sumR [AddCommMonoid α] (n : ℕ) (f : ℕ → α) : α := ((List.range n).map f).sum

/-! ## Tensors

A `(batch, channel, height, width)` tensor is a 4-deep nested list;
reductions that torch performs over trailing axes produce 3-deep lists
(`T3`) or flat per-batch lists. -/

/-- A 2-D feature plane (height × width). -/
abbrev T2 (α : Type) := List (List α)

/-- A 3-axis tensor. -/
abbrev T3 (α : Type) := List (List (List α))

/-- A 4-axis tensor `(b, c, h, w)`. -/
abbrev T4 (α : Type) := List (List (List (List α)))

/-- Read entry `(i, j)` of a plane, `0` outside the stored extent
(used for zero padding in the convolution). -/
def rowGet [Zero α] (m : T2 α) (i j : ℕ) : α := ((m.getD i []).getD j 0)

/-- Read entry `(i, j)` of a plane shifted by a padding margin `p`. -/
def padAt [Zero α] (m : T2 α) (p i j : ℕ) : α :=
  if i < p ∨ j < p then 0 else rowGet m (i - p) (j - p)

/-- Pointwise unary map over a 4-axis tensor. -/
def tmap (f : α → β) (t : T4 α) : T4 β := t.map (List.map (List.map (List.map f)))

/-- Pointwise binary map over two 4-axis tensors. -/
def tzip (f : α → β → γ) (t : T4 α) (u : T4 β) : T4 γ :=
  List.zipWith (List.zipWith (List.zipWith (List.zipWith f))) t u

/-- `torch.cat([t, u], axis=1)`: concatenation along the channel axis. -/
def tcat (t u : T4 α) : T4 α := List.zipWith (fun a b => a ++ b) t u

/-- `t[:, :n]`: keep the first `n` channels. -/
def channelTake (n : ℕ) (t : T4 α) : T4 α := t.map (List.take n)

/-- `t[:, n:]`: drop the first `n` channels. -/
def channelDrop (n : ℕ) (t : T4 α) : T4 α := t.map (List.drop n)

/-- `torch.sum(t)` over every axis. -/
def sumAll [AddCommMonoid α] (t : T4 α) : α :=
  (t.map (fun c => (c.map (fun h => (h.map List.sum).sum)).sum)).sum

/-- Number of elements of a 4-axis tensor. -/
def numel (t : T4 α) : ℕ :=
  (t.map (fun c => (c.map (fun h => (h.map List.length).sum)).sum)).sum

/-- `torch.mean(t)` over every axis. -/
def meanAll [DivisionRing α] (t : T4 α) : α := sumAll t / (numel t : α)

/-- Sum a 4-axis tensor over its last axis (the event axis that
`torch.distributions.Independent(·, 1)` reinterprets). -/
def sumLastAxis [AddCommMonoid α] (t : T4 α) : T3 α := t.map (List.map (List.map List.sum))

/-- `torch.sum(t, [1, 2])` for a 3-axis tensor: one scalar per batch item. -/
def sumAxes12 [AddCommMonoid α] (t : T3 α) : List α :=
  t.map (fun perB => (perB.map List.sum).sum)

/-- `torch.mean` of a 1-axis tensor. -/
def meanList [DivisionRing α] (l : List α) : α := l.sum / (l.length : α)

/-- `resize_up(input_features, scale)`: nearest-neighbour interpolation to
`scale` times the spatial size (`torch.nn.functional.interpolate`). -/
def resize_up [Zero α] (t : T4 α) (scale : ℕ) : T4 α :=
  t.map (fun chans => chans.map (fun m =>
    let h := m.length
    let w := (m.headD []).length
    (List.range (scale * h)).map (fun i =>
      (List.range (scale * w)).map (fun j => rowGet m (i / scale) (j / scale)))))

/-- `resize_down(input_features, scale)`: `torch.nn.AvgPool2d` with kernel
and stride `scale`. -/
def resize_down [DivisionRing α] (t : T4 α) (scale : ℕ) : T4 α :=
  t.map (fun chans => chans.map (fun m =>
    let h := m.length / scale
    let w := (m.headD []).length / scale
    (List.range h).map (fun i =>
      (List.range w).map (fun j =>
        (sumR scale (fun di => sumR scale (fun dj =>
          rowGet m (scale * i + di) (scale * j + dj)))) / ((scale * scale : ℕ) : α)))))

/-! ## Layers

A convolution stores its channel metadata together with its parameters
(weight and bias as functions of their indices); parameter sources hand
each created layer its own weights, keyed by the position of the layer in
the network (Python creates freshly initialized parameters per layer). -/

/-- The analytic functions of the numeric engine (`torch.exp`, `torch.log`).
The structural theorems hold for every choice; the Kullback-Leibler claims
are instantiated with `Real.exp` / `Real.log`. -/
structure Ops (α : Type) where
  exp : α → α
  log : α → α

/-- A source of freshly initialized parameters, keyed by the structural
position (path) of the created layer. -/
structure PSrc (α : Type) where
  w : List ℕ → ℕ → ℕ → ℕ → ℕ → α
  b : List ℕ → ℕ → α

/-- `torch.nn.Conv2d(in_channels, out_channels, kernel_size, padding)`. -/
structure Conv2d (α : Type) where
  in_channels : ℕ
  out_channels : ℕ
  kernel_size : ℕ
  padding : ℕ
  weight : ℕ → ℕ → ℕ → ℕ → α
  bias : ℕ → α

/-- Create a convolution layer, pulling its parameters from the source. -/
def Conv2d.new (ps : PSrc α) (path : List ℕ) (inC outC k p : ℕ) : Conv2d α :=
  { in_channels := inC, out_channels := outC, kernel_size := k, padding := p,
    weight := ps.w path, bias := ps.b path }

/-- Apply a 2-D convolution (stride 1, zero padding) to a 4-axis tensor. -/
def Conv2d.forward [CommRing α] (c : Conv2d α) (t : T4 α) : T4 α :=
  t.map (fun chans =>
    let inH := (chans.headD []).length
    let inW := ((chans.headD []).headD []).length
    let outH := inH + 2 * c.padding + 1 - c.kernel_size
    let outW := inW + 2 * c.padding + 1 - c.kernel_size
    (List.range c.out_channels).map (fun o =>
      (List.range outH).map (fun i =>
        (List.range outW).map (fun j =>
          c.bias o + ((enumAux 0 chans).map (fun cm =>
            sumR c.kernel_size (fun ki => sumR c.kernel_size (fun kj =>
              c.weight o cm.1 ki kj * padAt cm.2 c.padding (i + ki) (j + kj))))).sum))))

/-- One entry of a `torch.nn.Sequential`: a convolution or an activation. -/
inductive Layer (α : Type) where
  | conv (c : Conv2d α)
  | act (f : α → α)

/-- Apply one `Sequential` entry. -/
def Layer.apply [CommRing α] : Layer α → T4 α → T4 α
  | Layer.conv c, t => c.forward t
  | Layer.act f, t => tmap f t

/-- `ResBlock`: a residual block (pre-activation, a stack of convolutions
with interleaved activations, optional 1×1 projections). -/
structure ResBlock (α : Type) where
  activation_fn : α → α
  layers : List (Layer α)
  resize_skip : Option (Conv2d α)

/-- `ResBlock.__init__`: build the `Sequential` of `convs_per_block`
3×3 convolutions with activations between all but the last, an optional
1×1 `resize_outgoing` projection when the bottleneck width differs from
the output width, and an optional 1×1 skip projection when the input
width differs from the output width. -/
def ResBlock.make (ps : PSrc α) (path : List ℕ) (input_channels output_channels : ℕ)
    (n_down_channels : Option ℕ) (activation_fn : α → α) (convs_per_block : ℕ) :
    ResBlock α :=
  let n_down := n_down_channels.getD output_channels
  let convPart : List (Layer α) :=
    ((List.range convs_per_block).map (fun c =>
      Layer.conv (Conv2d.new ps (path ++ [c])
          (if c = 0 then input_channels else n_down) n_down 3 1) ::
        (if c < convs_per_block - 1 then [Layer.act activation_fn] else []))).flatten
  let layers :=
    if n_down = output_channels then convPart
    else convPart ++ [Layer.conv (Conv2d.new ps (path ++ [convs_per_block]) n_down output_channels 1 0)]
  { activation_fn := activation_fn,
    layers := layers,
    resize_skip :=
      if input_channels = output_channels then none
      else some (Conv2d.new ps (path ++ [convs_per_block + 1]) input_channels output_channels 1 0) }

/-- `ResBlock.forward`: residual path on the pre-activated input, optional
skip projection on the raw input, output = skip + residual. -/
def ResBlock.forward [CommRing α] (b : ResBlock α) (input_features : T4 α) : T4 α :=
  let residual := (b.layers.foldl (fun r l => Layer.apply l r) (tmap b.activation_fn input_features))
  let skip :=
    match b.resize_skip with
    | none => input_features
    | some c => c.forward input_features
  tzip (· + ·) skip residual

/-- Apply a `torch.nn.Sequential` of residual blocks. -/
def applyStack [CommRing α] (bs : List (ResBlock α)) (t : T4 α) : T4 α :=
  bs.foldl (fun acc b => b.forward acc) t

/-! ## Distributions -/

/-- `torch.distributions.Independent(Normal(loc, scale), 1)`: a diagonal
Gaussian over a `(b, latent_dim, h, w)` tensor whose last batch axis is
reinterpreted as an event axis. -/
structure IndepNormal (α : Type) where
  loc : T4 α
  scale : T4 α
  deriving DecidableEq

/-- Pointwise Kullback-Leibler divergence of two Normal distributions as
computed by torch: `0.5 * (vr + t1 - 1 - vr.log())` with
`vr = (p.scale / q.scale) ** 2` and `t1 = ((p.loc - q.loc) / q.scale) ** 2`. -/
def klPoint [Field α] (ops : Ops α) (pl ps ql qs : α) : α :=
  let vr := (ps / qs) ^ (2 : ℕ)
  let t1 := ((pl - ql) / qs) ^ (2 : ℕ)
  (1 / 2) * (vr + t1 - 1 - ops.log vr)

/-- Pointwise quaternary map over four 4-axis tensors. -/
def tzip4 (f : α → α → α → α → β) (a b c d : T4 α) : T4 β :=
  tzip (fun g x => g x.1 x.2) (tzip f a b) (tzip (fun x y => (x, y)) c d)

/-- `torch.distributions.kl.kl_divergence(p, q)` for two `Independent`
Normal distributions: the pointwise divergence summed over the
reinterpreted last axis, giving a `(b, latent_dim, h)` tensor. -/
def klDivergence [Field α] (ops : Ops α) (p q : IndepNormal α) : T3 α :=
  sumLastAxis (tzip4 (klPoint ops) p.loc p.scale q.loc q.scale)

/-- One iteration of the loop in `HierarchicalProbabilisticUnet.kl`:
`kl_per_pixel = kl_divergence(p, q); kl_per_instance = sum(kl_per_pixel, [1, 2]);
kl[level] = mean(kl_per_instance)`. -/
def klLevel [Field α] (ops : Ops α) (p q : IndepNormal α) : α :=
  meanList (sumAxes12 (klDivergence ops p q))

/-- `dist.sample()` for a reparameterized Normal: `loc + scale * eps`
where `eps` is a standard-normal draw delivered by the generator stream. -/
def IndepNormal.sampleWith [CommRing α] (d : IndepNormal α) (eps : T4 α) : T4 α :=
  tzip (· + ·) d.loc (tzip (· * ·) d.scale eps)

/-- The `mean` argument of `_HierarchicalCore.forward`: a single flag or a
per-scale list of flags. -/
inductive MeanFlag where
  | single (b : Bool)
  | perScale (l : List Bool)

/-- The dictionary returned by `_HierarchicalCore.forward`. -/
structure PassResult (α : Type) where
  decoder_features : T4 α
  encoder_features : List (T4 α)
  distributions : List (IndepNormal α)
  used_latents : List (T4 α)
  deriving DecidableEq

/-! ## `_HierarchicalCore` -/

/-- The module state of `_HierarchicalCore` after construction. -/
structure HierarchicalCore (α : Type) where
  latent_dims : List ℕ
  input_channels : ℕ
  channels_per_block : List ℕ
  down_channels_per_block : List ℕ
  activation_fn : α → α
  convs_per_block : ℕ
  blocks_per_level : ℕ
  encoder_layers : List (List (ResBlock α))
  decoder_layers : List (List (ResBlock α))
  mu_logsigma_blocks : List (Conv2d α)

/-- The encoder construction loop of `_HierarchicalCore.__init__`:
one stack of `blocks_per_level` residual blocks per level, threading the
running input channel count; indexing `channels_per_block[level]` or
`down_channels_per_block[level]` out of range raises. -/
def encInit (ps : PSrc α) (act : α → α) (convs blocks : ℕ) (cpb down : List ℕ) :
    List ℕ → ℕ → Except String (List (List (ResBlock α)))
  | [], _ => Except.ok []
  | level :: rest, inCh =>
    ebind (elift "IndexError: channels_per_block" (cpb.get? level)) fun outCh =>
    ebind (elift "IndexError: down_channels_per_block" (down.get? level)) fun dCh =>
    let stack := (List.range blocks).map (fun bidx =>
      ResBlock.make ps [0, level, bidx] (if bidx = 0 then inCh else outCh) outCh
        (some dCh) act convs)
    let inCh2 := if blocks = 0 then inCh else outCh
    ebind (encInit ps act convs blocks cpb down rest inCh2) fun restStacks =>
    Except.ok (stack :: restStacks)

/-- One iteration of the decoder construction loop of
`_HierarchicalCore.__init__`: reads `latent_dims[level]`, creates the
`mu_logsigma` 1×1 convolution on `channels_per_block[::-1][level]`
channels, computes the decoder input width from
`channels_per_block[::-1][level + 1]`, reads
`down_channels_per_block[::-1][level + 1]` and builds the block stack.
Out-of-range indexing raises, exactly where Python would. -/
def decIter (ps : PSrc α) (act : α → α) (convs blocks : ℕ)
    (latentDims cpbRev downRev : List ℕ) (level : ℕ) :
    Except String (Conv2d α × List (ResBlock α)) :=
  ebind (elift "IndexError: latent_dims" (latentDims.get? level)) fun latent_dim =>
  ebind (elift "IndexError: channels_per_block" (cpbRev.get? level)) fun cHere =>
  let mu_logsigma_block := Conv2d.new ps [1, level] cHere (2 * latent_dim) 1 0
  ebind (elift "IndexError: channels_per_block" (cpbRev.get? (level + 1))) fun cNext =>
  ebind (elift "IndexError: down_channels_per_block" (downRev.get? (level + 1))) fun dNext =>
  let decoder_in_channels := cNext + cHere + latent_dim
  let stack := (List.range blocks).map (fun bidx =>
    ResBlock.make ps [2, level, bidx] (if bidx = 0 then decoder_in_channels else cNext) cNext
      (some dNext) act convs)
  Except.ok (mu_logsigma_block, stack)

/-- `_HierarchicalCore.__init__`. A raised IndexError is returned as
`Except.error`; otherwise the constructed module state is returned. -/
def HierarchicalCore.init (ps : PSrc α) (latent_dims : List ℕ) (input_channels : ℕ)
    (channels_per_block : List ℕ) (down_channels_per_block : Option (List ℕ))
    (activation_fn : α → α) (convs_per_block blocks_per_level : ℕ) :
    Except String (HierarchicalCore α) :=
  let down := down_channels_per_block.getD channels_per_block
  let num_levels := channels_per_block.length
  let num_latent_levels := latent_dims.length
  ebind (encInit ps activation_fn convs_per_block blocks_per_level channels_per_block down
      (List.range num_levels) input_channels) fun encoders =>
  ebind (emapM (List.range num_latent_levels)
      (decIter ps activation_fn convs_per_block blocks_per_level latent_dims
        channels_per_block.reverse down.reverse)) fun rows =>
  Except.ok
    { latent_dims := latent_dims,
      input_channels := input_channels,
      channels_per_block := channels_per_block,
      down_channels_per_block := down,
      activation_fn := activation_fn,
      convs_per_block := convs_per_block,
      blocks_per_level := blocks_per_level,
      encoder_layers := encoders,
      decoder_layers := rows.map Prod.snd,
      mu_logsigma_blocks := rows.map Prod.fst }

/-- The generator stream: the `n`-th standard-normal draw of the global
torch generator. -/
abbrev RNG (α : Type) := ℕ → T4 α

/-- The encoder descent of `_HierarchicalCore.forward`: apply each level's
stack, record the result, and downsample except after the innermost level. -/
def encLoop [LinearOrderedField α] (numLevels : ℕ) :
    List (List (ResBlock α)) → ℕ → T4 α → List (T4 α)
  | [], _, _ => []
  | stack :: rest, level, feats =>
    let out := applyStack stack feats
    let next := if level = numLevels - 1 then out else resize_down out 2
    out :: encLoop numLevels rest (level + 1) next

/-- Resolve the latent to condition on (step b of the decoder ascent):
externally supplied latents win; otherwise the per-scale mean flag picks
the distribution mean; otherwise an independent sample is drawn,
consuming one draw of the generator. -/
def resolveZ [LinearOrderedField α] (rng : RNG α) (z_q : Option (List (T4 α)))
    (meanList_ : List Bool) (level : ℕ) (dist : IndepNormal α) (ctr : ℕ) :
    Except String (T4 α × ℕ) :=
  match z_q with
  | some zs => ebind (elift "IndexError: z_q" (zs.get? level)) fun z => Except.ok (z, ctr)
  | none =>
    ebind (elift "IndexError: mean" (meanList_.get? level)) fun m =>
    if m then Except.ok (dist.loc, ctr)
    else Except.ok (dist.sampleWith (rng ctr), ctr + 1)

/-- The decoder ascent of `_HierarchicalCore.forward` over the latent
levels: predict the per-pixel Gaussian via the level's `mu_logsigma`
1×1 convolution (mean and log-scale halves, scale exponentiated), resolve
the latent, concatenate it onto the decoder features, upsample,
concatenate with the encoder output of the next less-deep scale, and run
the level's block stack. Returns the final decoder features, the
distributions and used latents in level order, and the generator counter. -/
def decLoop [LinearOrderedField α] (core : HierarchicalCore α) (ops : Ops α) (rng : RNG α)
    (z_q : Option (List (T4 α))) (meanFlags : List Bool) (encOutputs : List (T4 α)) :
    List ℕ → T4 α → ℕ →
    Except String (T4 α × List (IndepNormal α) × List (T4 α) × ℕ)
  | [], df, ctr => Except.ok (df, [], [], ctr)
  | level :: rest, df, ctr =>
    ebind (elift "IndexError: latent_dims" (core.latent_dims.get? level)) fun latent_dim =>
    ebind (elift "IndexError: mu_logsigma_blocks" (core.mu_logsigma_blocks.get? level)) fun blk =>
    let mu_logsigma := blk.forward df
    let mu := channelTake latent_dim mu_logsigma
    let log_sigma := channelDrop latent_dim mu_logsigma
    let dist : IndepNormal α := { loc := mu, scale := tmap ops.exp log_sigma }
    ebind (resolveZ rng z_q meanFlags level dist ctr) fun zc =>
    let z := zc.1
    let decoder_output_lo := tcat z df
    let decoder_output_hi := resize_up decoder_output_lo 2
    ebind (elift "IndexError: encoder_outputs" (encOutputs.reverse.get? (level + 1))) fun skipF =>
    let merged := tcat decoder_output_hi skipF
    ebind (elift "IndexError: decoder_layers" (core.decoder_layers.get? level)) fun stack =>
    let df2 := applyStack stack merged
    ebind (decLoop core ops rng z_q meanFlags encOutputs rest df2 zc.2) fun out =>
    Except.ok (out.1, dist :: out.2.1, z :: out.2.2.1, out.2.2.2)

/-- `_HierarchicalCore.forward(inputs, mean, z_q)`. The boolean `mean`
flag is broadcast to one flag per latent scale before the decoder ascent;
`encoder_outputs[-1]` of an empty encoder raises. Returns the
`PassResult` dictionary and the advanced generator counter. -/
def HierarchicalCore.forward [LinearOrderedField α] (core : HierarchicalCore α) (ops : Ops α)
    (rng : RNG α) (ctr : ℕ) (inputs : T4 α) (mean : MeanFlag)
    (z_q : Option (List (T4 α))) : Except String (PassResult α × ℕ) :=
  ebind (elift "IndexError: encoder_outputs"
      (encLoop core.channels_per_block.length core.encoder_layers 0 inputs).getLast?) fun df0 =>
  ebind (decLoop core ops rng z_q
      (match mean with
        | MeanFlag.single b => List.replicate core.latent_dims.length b
        | MeanFlag.perScale l => l)
      (encLoop core.channels_per_block.length core.encoder_layers 0 inputs)
      (List.range core.latent_dims.length) df0 ctr) fun out =>
  Except.ok
    ({ decoder_features := out.1,
       encoder_features := encLoop core.channels_per_block.length core.encoder_layers 0 inputs,
       distributions := out.2.1,
       used_latents := out.2.2.1 }, out.2.2.2)

/-! ## `_StitchingDecoder` -/

/-- The module state of `_StitchingDecoder` after construction.
`final_layer` is an *optional* attribute: Python assigns it inside the
construction loop, so it exists only if the loop ran at least once. -/
structure StitchingDecoder (α : Type) where
  latent_dims : List ℕ
  channels_per_block : List ℕ
  num_classes : ℕ
  down_channels_per_block : List ℕ
  activation_fn : α → α
  convs_per_block : ℕ
  blocks_per_level : ℕ
  start_level : ℕ
  num_levels : ℕ
  decoder_layers : List (List (ResBlock α))
  final_layer : Option (Conv2d α)

/-- The construction loop of `_StitchingDecoder.__init__` over
`range(start_level, num_levels)`: builds each level's stack and
(re)assigns `final_layer` on every iteration, so after an empty loop no
`final_layer` attribute exists. -/
def sdLoop (ps : PSrc α) (act : α → α) (convs blocks num_classes : ℕ)
    (cpbRev downRev : List ℕ) :
    List ℕ → Except String (List (List (ResBlock α)) × Option (Conv2d α))
  | [] => Except.ok ([], none)
  | level :: rest =>
    ebind (elift "IndexError: channels_per_block" (cpbRev.get? (level - 1))) fun cPrev =>
    ebind (elift "IndexError: channels_per_block" (cpbRev.get? level)) fun cHere =>
    ebind (elift "IndexError: down_channels_per_block" (downRev.get? level)) fun dHere =>
    let decoder_in_channels := cPrev + cHere
    let stack := (List.range blocks).map (fun bidx =>
      ResBlock.make ps [3, level, bidx] (if bidx = 0 then decoder_in_channels else cHere) cHere
        (some dHere) act convs)
    let fin := Conv2d.new ps [4, level]
      (if blocks = 0 then decoder_in_channels else cHere) num_classes 1 0
    ebind (sdLoop ps act convs blocks num_classes cpbRev downRev rest) fun out =>
    Except.ok (stack :: out.1,
      match out.2 with
      | some f => some f
      | none => some fin)

/-- `_StitchingDecoder.__init__`. -/
def StitchingDecoder.init (ps : PSrc α) (latent_dims : List ℕ)
    (channels_per_block : List ℕ) (num_classes : ℕ)
    (down_channels_per_block : Option (List ℕ)) (activation_fn : α → α)
    (convs_per_block blocks_per_level : ℕ) : Except String (StitchingDecoder α) :=
  ebind (sdLoop ps activation_fn convs_per_block blocks_per_level num_classes
      channels_per_block.reverse (down_channels_per_block.getD channels_per_block).reverse
      (pyRange (latent_dims.length + 1) channels_per_block.length)) fun out =>
  Except.ok
    { latent_dims := latent_dims,
      channels_per_block := channels_per_block,
      num_classes := num_classes,
      down_channels_per_block := down_channels_per_block.getD channels_per_block,
      activation_fn := activation_fn,
      convs_per_block := convs_per_block,
      blocks_per_level := blocks_per_level,
      start_level := latent_dims.length + 1,
      num_levels := channels_per_block.length,
      decoder_layers := out.1,
      final_layer := out.2 }

/-- The decoder completion loop of `_StitchingDecoder.forward`. -/
def sdFwdLoop [LinearOrderedField α] (startLevel : ℕ) (encoder_features : List (T4 α)) :
    List (ℕ × List (ResBlock α)) → T4 α → Except String (T4 α)
  | [], df => Except.ok df
  | (level, stack) :: rest, df =>
    let enc_level := startLevel + level
    let up := resize_up df 2
    ebind (elift "IndexError: encoder_features" (encoder_features.reverse.get? enc_level)) fun skipF =>
    let merged := tcat up skipF
    sdFwdLoop startLevel encoder_features rest (applyStack stack merged)

/-- `_StitchingDecoder.forward(encoder_features, decoder_features)`.
Accessing the never-created `final_layer` attribute raises AttributeError. -/
def StitchingDecoder.forward [LinearOrderedField α] (sd : StitchingDecoder α)
    (encoder_features : List (T4 α)) (decoder_features : T4 α) : Except String (T4 α) :=
  ebind (sdFwdLoop sd.start_level encoder_features (enumAux 0 sd.decoder_layers)
      decoder_features) fun df =>
  match sd.final_layer with
  | none => Except.error "AttributeError: final_layer"
  | some c => Except.ok (c.forward df)

/-! ## `HierarchicalProbabilisticUnet` -/

/-- The `loss_kwargs` configuration dictionary. -/
structure LossKwargs (α : Type) where
  type : String
  kappa : α
  decay : α
  rate : α
  beta : α

/-- A value of the heterogeneous dictionary returned by `loss`: either a
scalar tensor or a string-keyed mapping of scalars. -/
inductive PyVal (α : Type) where
  | scalar (x : α)
  | strMap (m : List (String × α))
  deriving DecidableEq

/-- The module state of `HierarchicalProbabilisticUnet`: the three
submodules, the memoization cache (`_cache` plus the five stored pass
results), the loss configuration, and the position of the global
generator (modelling torch's global RNG state). -/
structure HierarchicalProbabilisticUnet (α : Type) where
  prior : HierarchicalCore α
  posterior : HierarchicalCore α
  f_comb : StitchingDecoder α
  cache : Option (T4 α)
  loss_kwargs : LossKwargs α
  q_sample : Option (PassResult α)
  q_sample_mean : Option (PassResult α)
  p_sample : Option (PassResult α)
  p_sample_z_q : Option (PassResult α)
  p_sample_z_q_mean : Option (PassResult α)
  rng_ctr : ℕ

/-- Short name for the orchestrator state. -/
abbrev HPUnet (α : Type) := HierarchicalProbabilisticUnet α

/-- The default `channels_per_block` of
`HierarchicalProbabilisticUnet.__init__` (`base_channels = 24`). -/
def defaultChannelsPerBlock : List ℕ := [24, 48, 96, 192, 192, 192, 192, 192]

/-- `HierarchicalProbabilisticUnet.__init__`. Note the quirk of the
source: when `down_channels_per_block` is `None` it is derived from the
*default* channel schedule, not from a caller-supplied one. -/
def HierarchicalProbabilisticUnet.init (ps : PSrc α) (input_channels num_classes : ℕ)
    (channels_per_block : Option (List ℕ)) (down_channels_per_block : Option (List ℕ))
    (latent_dims : List ℕ) (convs_per_block blocks_per_level : ℕ)
    (activation_fn : α → α) (loss_kwargs : Option (LossKwargs α))
    [Field α] : Except String (HPUnet α) :=
  ebind (HierarchicalCore.init ps latent_dims input_channels
      (channels_per_block.getD defaultChannelsPerBlock)
      (some (down_channels_per_block.getD (defaultChannelsPerBlock.map (fun i => i / 2))))
      activation_fn convs_per_block blocks_per_level) fun priorCore =>
  ebind (HierarchicalCore.init ps latent_dims (input_channels + num_classes)
      (channels_per_block.getD defaultChannelsPerBlock)
      (some (down_channels_per_block.getD (defaultChannelsPerBlock.map (fun i => i / 2))))
      activation_fn convs_per_block blocks_per_level) fun posteriorCore =>
  ebind (StitchingDecoder.init ps latent_dims
      (channels_per_block.getD defaultChannelsPerBlock) num_classes
      (some (down_channels_per_block.getD (defaultChannelsPerBlock.map (fun i => i / 2))))
      activation_fn convs_per_block blocks_per_level) fun fComb =>
  Except.ok
    { prior := priorCore,
      posterior := posteriorCore,
      f_comb := fComb,
      cache := none,
      loss_kwargs := loss_kwargs.getD
        { type := "elbo", kappa := 5 / 100, decay := 99 / 100, rate := 1 / 100, beta := 1 },
      q_sample := none,
      q_sample_mean := none,
      p_sample := none,
      p_sample_z_q := none,
      p_sample_z_q_mean := none,
      rng_ctr := 0 }

/-- The recompute branch of `HierarchicalProbabilisticUnet.forward`: the
five passes run in order (posterior sampled, posterior means, prior
sampled, prior on sampled posterior latents, prior on mean posterior
latents), all five results and the input pair are stored, and the global
generator advances past the draws the sampling passes consumed. -/
def HPUnet.recompute [LinearOrderedField α] (M : HPUnet α) (ops : Ops α) (rng : RNG α)
    (img : T4 α) (input_tensor : T4 α) : Except String (HPUnet α) :=
  ebind (M.posterior.forward ops rng M.rng_ctr input_tensor (MeanFlag.single false) none) fun q1 =>
  ebind (M.posterior.forward ops rng q1.2 input_tensor (MeanFlag.single true) none) fun q2 =>
  ebind (M.prior.forward ops rng q2.2 img (MeanFlag.single false) none) fun p1 =>
  ebind (M.prior.forward ops rng p1.2 img (MeanFlag.single false) (some q1.1.used_latents)) fun p2 =>
  ebind (M.prior.forward ops rng p2.2 img (MeanFlag.single false) (some q2.1.used_latents)) fun p3 =>
  Except.ok
    { M with
      q_sample := some q1.1,
      q_sample_mean := some q2.1,
      p_sample := some p1.1,
      p_sample_z_q := some p2.1,
      p_sample_z_q_mean := some p3.1,
      cache := some input_tensor,
      rng_ctr := p3.2 }

/-- `HierarchicalProbabilisticUnet.forward(img, seg)`: memoized paired
forward pass. If the concatenated input pair is bit-identical to the
cached tensor, nothing is recomputed. -/
def HPUnet.forward [LinearOrderedField α] [DecidableEq α] (M : HPUnet α) (ops : Ops α)
    (rng : RNG α) (img seg : T4 α) : Except String (HPUnet α) :=
  match M.cache with
  | some c =>
    if c = tcat img seg then Except.ok M
    else M.recompute ops rng img (tcat img seg)
  | none => M.recompute ops rng img (tcat img seg)

/-- `HierarchicalProbabilisticUnet.sample(img, mean, z_q)`: run the prior
alone (no cache interaction) and stitch its encoder pyramid and decoder
features into segmentation logits. -/
def HPUnet.sample [LinearOrderedField α] (M : HPUnet α) (ops : Ops α) (rng : RNG α)
    (img : T4 α) (mean : MeanFlag) (z_q : Option (List (T4 α))) : Except String (T4 α) :=
  ebind (M.prior.forward ops rng M.rng_ctr img mean z_q) fun prior_out =>
  M.f_comb.forward prior_out.1.encoder_features prior_out.1.decoder_features

/-- `HierarchicalProbabilisticUnet.reconstruct(img, seg, mean)`: refresh
the cache, then stitch the prior pass conditioned on the (mean or
sampled) posterior latents. Reading a never-populated cache field raises
(Python would subscript `None`). -/
def HPUnet.reconstruct [LinearOrderedField α] [DecidableEq α] (M : HPUnet α) (ops : Ops α)
    (rng : RNG α) (img seg : T4 α) (mean : Bool) : Except String (HPUnet α × T4 α) :=
  ebind (M.forward ops rng img seg) fun M2 =>
  ebind (elift "TypeError: NoneType" (if mean then M2.p_sample_z_q_mean else M2.p_sample_z_q))
    fun prior_out =>
  ebind (M2.f_comb.forward prior_out.encoder_features prior_out.decoder_features) fun logits =>
  Except.ok (M2, logits)

/-- `HierarchicalProbabilisticUnet.kl(img, seg)`: refresh the cache, then
for each level of `zip(p_dists, q_dists)` — `p` from the prior pass
conditioned on the sampled posterior latents, `q` from the sampled
posterior pass — compute `kl_divergence(p, q)`, sum over axes `[1, 2]`
and average over the batch. The mapping from level to scalar is
represented by the list of its values in level order. -/
def HPUnet.kl [LinearOrderedField α] [DecidableEq α] (M : HPUnet α) (ops : Ops α)
    (rng : RNG α) (img seg : T4 α) : Except String (HPUnet α × List α) :=
  ebind (M.forward ops rng img seg) fun M2 =>
  ebind (elift "TypeError: NoneType" M2.q_sample) fun posterior_out =>
  ebind (elift "TypeError: NoneType" M2.p_sample_z_q) fun prior_out =>
  let q_dists := posterior_out.distributions
  let p_dists := prior_out.distributions
  Except.ok (M2, (p_dists.zip q_dists).map (fun pq => klLevel ops pq.1 pq.2))

/-- Pointwise `torch.nn.BCEWithLogitsLoss(reduction="none")`:
`max(x, 0) - x * y + log(1 + exp(-|x|))`. -/
def bceWithLogits [LinearOrderedField α] (ops : Ops α) (x y : α) : α :=
  max x 0 - x * y + ops.log (1 + ops.exp (-|x|))

/-- The pair returned by `rec_loss`. -/
structure RecLossOut (α : Type) where
  mean : α
  sum : α
  deriving DecidableEq

/-- `HierarchicalProbabilisticUnet.rec_loss(img, seg)`: reconstruct with
sampled latents, apply elementwise binary cross-entropy with logits
against the label, and reduce to sum and mean. -/
def HPUnet.rec_loss [LinearOrderedField α] [DecidableEq α] (M : HPUnet α) (ops : Ops α)
    (rng : RNG α) (img seg : T4 α) : Except String (HPUnet α × RecLossOut α) :=
  ebind (M.reconstruct ops rng img seg false) fun out =>
  let reconstruction_loss := tzip (bceWithLogits ops) out.2 seg
  Except.ok (out.1,
    { mean := meanAll reconstruction_loss, sum := sumAll reconstruction_loss })

/-- Assemble the summaries dictionary and the result of `loss` from the
reconstruction losses and the per-level KL values: the summaries hold
`rec_loss_mean`, `rec_loss_sum`, `kl_sum`, one `kl_<level>` entry per
latent level, and (for the ELBO objective) `elbo_loss`; an unrecognized
objective type raises NotImplementedError. -/
def lossAssemble [LinearOrderedField α] (kw : LossKwargs α) (rl : RecLossOut α)
    (klVals : List α) : Except String (List (String × PyVal α)) :=
  if kw.type = "elbo" then
    Except.ok [("supervised_loss", PyVal.scalar (rl.sum + kw.beta * klVals.sum)),
      ("summaries", PyVal.strMap
        (([("rec_loss_mean", rl.mean), ("rec_loss_sum", rl.sum), ("kl_sum", klVals.sum)] ++
            (enumAux 0 klVals).map (fun p => ("kl_" ++ toString p.1, p.2))) ++
          [("elbo_loss", rl.sum + kw.beta * klVals.sum)]))]
  else Except.error ("Loss type " ++ kw.type ++ " not implemeted!")

/-- `HierarchicalProbabilisticUnet.loss(img, seg)`: reconstruction loss,
then per-level KL (both through the shared memoized forward pass), then
the configured objective. Only the returned dictionary is modelled; the
mutated module state is internal to the call. -/
def HPUnet.loss [LinearOrderedField α] [DecidableEq α] (M : HPUnet α) (ops : Ops α)
    (rng : RNG α) (img seg : T4 α) : Except String (List (String × PyVal α)) :=
  ebind (M.rec_loss ops rng img seg) fun r1 =>
  ebind (r1.1.kl ops rng img seg) fun r2 =>
  lossAssemble r2.1.loss_kwargs r1.2 r2.2

/-! ## Concrete test fixtures

A tiny concretely evaluable configuration over `ℚ`: zero-initialized
parameters, a zero image and label, and witness instantiations of the
analytic operations and the generator stream. -/

/-- Parameter source with all weights and biases zero. -/
def zeroPS : PSrc ℚ := { w := fun _ _ _ _ _ => 0, b := fun _ _ => 0 }

/-- Witness instantiation of the analytic operations over `ℚ`. -/
def qOps : Ops ℚ := { exp := fun _ => 1, log := fun _ => 0 }

/-- Witness generator stream: every draw is a 1×1×1×1 zero tensor. -/
def rng0 : RNG ℚ := fun _ => [[[[0]]]]

/-- A second, distinct witness generator stream. -/
def rng1 : RNG ℚ := fun _ => [[[[1]]]]

/-- A 1-channel 4×4 zero image (batch of one). -/
def img0 : T4 ℚ := [[[[0, 0, 0, 0], [0, 0, 0, 0], [0, 0, 0, 0], [0, 0, 0, 0]]]]

/-- A 1-channel 4×4 zero label (batch of one). -/
def seg0 : T4 ℚ := [[[[0, 0, 0, 0], [0, 0, 0, 0], [0, 0, 0, 0], [0, 0, 0, 0]]]]

/-- A tiny orchestrator: `channels_per_block = [1, 1, 1]`,
`latent_dims = [1]`, one block per level, one convolution per block. -/
def M3e : Except String (HPUnet ℚ) :=
  HierarchicalProbabilisticUnet.init zeroPS 1 1 (some [1, 1, 1]) (some [1, 1, 1]) [1] 1 1 id none

/-- The tiny orchestrator state, extracted. -/
def M3 : HPUnet ℚ :=
  match M3e with
  | Except.ok m => m
  | Except.error _ =>
    { prior :=
        { latent_dims := [], input_channels := 0, channels_per_block := [],
          down_channels_per_block := [], activation_fn := id, convs_per_block := 0,
          blocks_per_level := 0, encoder_layers := [], decoder_layers := [],
          mu_logsigma_blocks := [] },
      posterior :=
        { latent_dims := [], input_channels := 0, channels_per_block := [],
          down_channels_per_block := [], activation_fn := id, convs_per_block := 0,
          blocks_per_level := 0, encoder_layers := [], decoder_layers := [],
          mu_logsigma_blocks := [] },
      f_comb :=
        { latent_dims := [], channels_per_block := [], num_classes := 0,
          down_channels_per_block := [], activation_fn := id, convs_per_block := 0,
          blocks_per_level := 0, start_level := 0, num_levels := 0,
          decoder_layers := [], final_layer := none },
      cache := none,
      loss_kwargs := { type := "elbo", kappa := 0, decay := 0, rate := 0, beta := 1 },
      q_sample := none, q_sample_mean := none, p_sample := none,
      p_sample_z_q := none, p_sample_z_q_mean := none, rng_ctr := 0 }

/-- A tiny standalone core for witnesses: two encoder scales of one
channel, one latent scale. -/
def coreC : HierarchicalCore ℚ :=
  { latent_dims := [1], input_channels := 1, channels_per_block := [1, 1],
    down_channels_per_block := [1, 1], activation_fn := id, convs_per_block := 1,
    blocks_per_level := 1,
    encoder_layers := [[ResBlock.make zeroPS [0, 0, 0] 1 1 (some 1) id 1],
      [ResBlock.make zeroPS [0, 1, 0] 1 1 (some 1) id 1]],
    decoder_layers := [[ResBlock.make zeroPS [2, 0, 0] 3 1 (some 1) id 1]],
    mu_logsigma_blocks := [Conv2d.new zeroPS [1, 0] 1 2 1 0] }

/-- A 1-channel 2×2 zero image. -/
def img2 : T4 ℚ := [[[[0, 0], [0, 0]]]]

/-- A single external latent tensor. -/
def z1 : T4 ℚ := [[[[1]]]]

/-- The pass result of `coreC` on `img2` with the external latent `z1`. -/
def passC : PassResult ℚ :=
  { decoder_features := [[[[0, 0], [0, 0]]]],
    encoder_features := [[[[[0, 0], [0, 0]]]], [[[[0]]]]],
    distributions := [{ loc := [[[[0]]]], scale := [[[[1]]]] }],
    used_latents := [[[[[1]]]]] }

/-- The stitching decoder produced by the degenerate configuration of
claim C10: an empty construction loop, hence no `final_layer`. -/
def sdC : StitchingDecoder ℚ :=
  { latent_dims := [1], channels_per_block := [1, 1], num_classes := 1,
    down_channels_per_block := [1, 1], activation_fn := id, convs_per_block := 1,
    blocks_per_level := 1, start_level := 2, num_levels := 2,
    decoder_layers := [], final_layer := none }

/-- A tiny orchestrator owning `sdC`, used to witness claim C10. -/
def MC : HPUnet ℚ :=
  { prior := coreC, posterior := coreC, f_comb := sdC, cache := none,
    loss_kwargs := { type := "elbo", kappa := 5 / 100, decay := 99 / 100, rate := 1 / 100, beta := 1 },
    q_sample := none, q_sample_mean := none, p_sample := none,
    p_sample_z_q := none, p_sample_z_q_mean := none, rng_ctr := 0 }

/-- The concrete dictionary returned by `loss` on the tiny fixture. -/
def lossRes3 : List (String × PyVal ℚ) :=
  [("supervised_loss", PyVal.scalar 0),
    ("summaries", PyVal.strMap
      [("rec_loss_mean", 0), ("rec_loss_sum", 0), ("kl_sum", 0), ("kl_0", 0),
        ("elbo_loss", 0)])]

/-- The tiny fixture reconfigured with the unimplemented "geco"
objective type. -/
def M4 : HPUnet ℚ :=
  { M3 with loss_kwargs :=
    { type := "geco", kappa := 5 / 100, decay := 99 / 100, rate := 1 / 100, beta := 1 } }

/-! ## Theorems -/
@[simp] theorem ebind_ok (x : β) (f : β → Except ε γ) : ebind (Except.ok x) f = f x := rfl

@[simp] theorem ebind_error (e : ε) (f : β → Except ε γ) :
    ebind (Except.error e : Except ε β) f = Except.error e := rfl

theorem ebind_assoc (e : Except ε β) (f : β → Except ε γ) (g : γ → Except ε δ) :
    ebind (ebind e f) g = ebind e (fun x => ebind (f x) g) := by
  cases e <;> rfl

@[simp] theorem eIsOk_ok (x : β) : eIsOk (Except.ok x : Except ε β) = true := rfl

@[simp] theorem eIsOk_error (e : ε) : eIsOk (Except.error e : Except ε β) = false := rfl

@[simp] theorem elift_some (msg : ε) (x : β) : elift msg (some x) = Except.ok x := rfl

@[simp] theorem elift_none (msg : ε) : elift msg (none : Option β) = Except.error msg := rfl

@[simp] theorem emapM_nil (f : β → Except ε γ) : emapM [] f = Except.ok [] := rfl

@[simp] theorem emapM_cons (x : β) (xs : List β) (f : β → Except ε γ) :
    emapM (x :: xs) f = ebind (f x) fun y => ebind (emapM xs f) fun ys => Except.ok (y :: ys) := rfl

theorem emapM_isError {l : List β} {f : β → Except ε γ} {x : β}
    (hx : x ∈ l) (hf : eIsOk (f x) = false) : eIsOk (emapM l f) = false := by
  induction l with
  | nil => cases hx
  | cons a as ih =>
    rcases List.mem_cons.mp hx with h | h
    · subst h
      cases hfa : f x with
      | error e => simp [hfa]
      | ok y => rw [hfa] at hf; simp at hf
    · cases hfa : f a with
      | error e => simp [hfa]
      | ok y =>
        have := ih h
        cases hm : emapM as f with
        | error e => simp [hfa, hm]
        | ok ys => rw [hm] at this; simp at this

@[simp] theorem enumAux_nil (i : ℕ) : enumAux i ([] : List β) = [] := rfl

@[simp] theorem enumAux_cons (i : ℕ) (x : β) (xs : List β) :
    enumAux i (x :: xs) = (i, x) :: enumAux (i + 1) xs := rfl

theorem enumAux_map_snd (i : ℕ) (l : List β) : (enumAux i l).map Prod.snd = l := by
  induction l generalizing i with
  | nil => rfl
  | cons x xs ih => simp [ih]

theorem enumAux_mem (l : List β) (i j : ℕ) (hj : j < l.length) :
    (i + j, l.get ⟨j, hj⟩) ∈ enumAux i l := by
  induction l generalizing i j with
  | nil => cases hj
  | cons x xs ih =>
    cases j with
    | zero => simp
    | succ j =>
      have := ih (i + 1) j (by simpa using Nat.lt_of_succ_lt_succ hj)
      refine List.mem_cons.mpr (Or.inr ?_)
      have harith : i + 1 + j = i + (j + 1) := by omega
      rw [harith] at this
      simpa using this

/-! ## Helper lemmas -/

theorem HPUnet.recompute_ok [LinearOrderedField α] {M M' : HPUnet α} {ops : Ops α}
    {rng : RNG α} {img input_tensor : T4 α}
    (h : HPUnet.recompute M ops rng img input_tensor = Except.ok M') :
    ∃ q1 q2 p1 p2 p3,
      M.posterior.forward ops rng M.rng_ctr input_tensor (MeanFlag.single false) none =
        Except.ok q1 ∧
      M.posterior.forward ops rng q1.2 input_tensor (MeanFlag.single true) none = Except.ok q2 ∧
      M.prior.forward ops rng q2.2 img (MeanFlag.single false) none = Except.ok p1 ∧
      M.prior.forward ops rng p1.2 img (MeanFlag.single false) (some q1.1.used_latents) =
        Except.ok p2 ∧
      M.prior.forward ops rng p2.2 img (MeanFlag.single false) (some q2.1.used_latents) =
        Except.ok p3 ∧
      M' = { M with
             q_sample := some q1.1,
             q_sample_mean := some q2.1,
             p_sample := some p1.1,
             p_sample_z_q := some p2.1,
             p_sample_z_q_mean := some p3.1,
             cache := some input_tensor,
             rng_ctr := p3.2 } := by
  unfold HPUnet.recompute at h
  cases h1 : M.posterior.forward ops rng M.rng_ctr input_tensor (MeanFlag.single false) none with
  | error e => rw [h1] at h; simp at h
  | ok q1 =>
    rw [h1] at h; simp only [ebind_ok] at h
    cases h2 : M.posterior.forward ops rng q1.2 input_tensor (MeanFlag.single true) none with
    | error e => rw [h2] at h; simp at h
    | ok q2 =>
      rw [h2] at h; simp only [ebind_ok] at h
      cases h3 : M.prior.forward ops rng q2.2 img (MeanFlag.single false) none with
      | error e => rw [h3] at h; simp at h
      | ok p1 =>
        rw [h3] at h; simp only [ebind_ok] at h
        cases h4 : M.prior.forward ops rng p1.2 img (MeanFlag.single false)
            (some q1.1.used_latents) with
        | error e => rw [h4] at h; simp at h
        | ok p2 =>
          rw [h4] at h; simp only [ebind_ok] at h
          cases h5 : M.prior.forward ops rng p2.2 img (MeanFlag.single false)
              (some q2.1.used_latents) with
          | error e => rw [h5] at h; simp at h
          | ok p3 =>
            rw [h5] at h
            simp only [ebind_ok, Except.ok.injEq] at h
            exact ⟨q1, q2, p1, p2, p3, rfl, h2, h3, h4, h5, h.symm⟩

theorem HPUnet.forward_ok_split [LinearOrderedField α] [DecidableEq α] {M M' : HPUnet α}
    {ops : Ops α} {rng : RNG α} {img seg : T4 α}
    (h : HPUnet.forward M ops rng img seg = Except.ok M') :
    (M.cache = some (tcat img seg) ∧ M' = M) ∨
      HPUnet.recompute M ops rng img (tcat img seg) = Except.ok M' := by
  unfold HPUnet.forward at h
  cases hc : M.cache with
  | none => rw [hc] at h; exact Or.inr h
  | some c =>
    rw [hc] at h
    simp only at h
    by_cases he : c = tcat img seg
    · rw [if_pos he] at h
      simp only [Except.ok.injEq] at h
      exact Or.inl ⟨by rw [he], h.symm⟩
    · rw [if_neg he] at h
      exact Or.inr h

theorem HPUnet.forward_ok_facts [LinearOrderedField α] [DecidableEq α] {M M' : HPUnet α}
    {ops : Ops α} {rng : RNG α} {img seg : T4 α}
    (h : HPUnet.forward M ops rng img seg = Except.ok M') :
    M'.prior = M.prior ∧ M'.posterior = M.posterior ∧ M'.f_comb = M.f_comb ∧
      M'.loss_kwargs = M.loss_kwargs ∧ M'.cache = some (tcat img seg) := by
  rcases HPUnet.forward_ok_split h with ⟨hc, hM⟩ | hr
  · subst hM; exact ⟨rfl, rfl, rfl, rfl, hc⟩
  · rcases HPUnet.recompute_ok hr with ⟨q1, q2, p1, p2, p3, _, _, _, _, _, hM⟩
    subst hM; exact ⟨rfl, rfl, rfl, rfl, rfl⟩

theorem HPUnet.forward_self [LinearOrderedField α] [DecidableEq α] {M M' : HPUnet α}
    {ops : Ops α} {rng : RNG α} {img seg : T4 α}
    (h : HPUnet.forward M ops rng img seg = Except.ok M') :
    HPUnet.forward M' ops rng img seg = Except.ok M' := by
  have hc := (HPUnet.forward_ok_facts h).2.2.2.2
  unfold HPUnet.forward
  rw [hc]
  simp

theorem decLoop_external_latents [LinearOrderedField α] (core : HierarchicalCore α)
    (ops : Ops α) (rng1 rng2 : RNG α) (zs : List (T4 α)) (ml1 ml2 : List Bool)
    (enc : List (T4 α)) (lvls : List ℕ) (df : T4 α) (ctr : ℕ) :
    decLoop core ops rng1 (some zs) ml1 enc lvls df ctr =
      decLoop core ops rng2 (some zs) ml2 enc lvls df ctr := by
  induction lvls generalizing df ctr with
  | nil => rfl
  | cons l rest ih =>
    simp only [decLoop, resolveZ]
    cases h1 : core.latent_dims.get? l with
    | none => rfl
    | some d =>
      simp only [elift_some, ebind_ok]
      cases h2 : core.mu_logsigma_blocks.get? l with
      | none => rfl
      | some blk =>
        simp only [elift_some, ebind_ok]
        cases h3 : zs.get? l with
        | none => rfl
        | some z =>
          simp only [elift_some, ebind_ok]
          cases h4 : enc.reverse.get? (l + 1) with
          | none => rfl
          | some sf =>
            simp only [elift_some, ebind_ok]
            cases h5 : core.decoder_layers.get? l with
            | none => rfl
            | some stack =>
              simp only [elift_some, ebind_ok]
              rw [ih]

theorem decLoop_mean_true [LinearOrderedField α] (core : HierarchicalCore α)
    (ops : Ops α) (rng1 rng2 : RNG α) (ml : List Bool) (enc : List (T4 α))
    (lvls : List ℕ) (df : T4 α) (ctr : ℕ)
    (hml : ∀ l ∈ lvls, ml.get? l = some true) :
    decLoop core ops rng1 none ml enc lvls df ctr =
      decLoop core ops rng2 none ml enc lvls df ctr := by
  induction lvls generalizing df ctr with
  | nil => rfl
  | cons l rest ih =>
    simp only [decLoop, resolveZ]
    cases h1 : core.latent_dims.get? l with
    | none => rfl
    | some d =>
      simp only [elift_some, ebind_ok]
      cases h2 : core.mu_logsigma_blocks.get? l with
      | none => rfl
      | some blk =>
        simp only [elift_some, ebind_ok]
        rw [hml l (List.mem_cons_self l rest)]
        simp only [elift_some, ebind_ok, if_pos]
        cases h4 : enc.reverse.get? (l + 1) with
        | none => rfl
        | some sf =>
          simp only [elift_some, ebind_ok]
          cases h5 : core.decoder_layers.get? l with
          | none => rfl
          | some stack =>
            simp only [elift_some, ebind_ok]
            rw [ih _ _ (fun x hx => hml x (List.mem_cons_of_mem l hx))]

theorem decLoop_ok_external [LinearOrderedField α] (core : HierarchicalCore α)
    (ops : Ops α) (rng : RNG α) (zs : List (T4 α)) (ml : List Bool)
    (enc : List (T4 α)) (lvls : List ℕ) (df : T4 α) (ctr : ℕ)
    (out : T4 α × List (IndepNormal α) × List (T4 α) × ℕ)
    (h : decLoop core ops rng (some zs) ml enc lvls df ctr = Except.ok out) :
    out.2.2.1 = lvls.filterMap (fun l => zs.get? l) ∧ out.2.2.2 = ctr := by
  induction lvls generalizing df ctr out with
  | nil =>
    simp only [decLoop, Except.ok.injEq] at h
    rw [← h]
    exact ⟨rfl, rfl⟩
  | cons l rest ih =>
    simp only [decLoop, resolveZ] at h
    cases h1 : core.latent_dims.get? l with
    | none => rw [h1] at h; simp at h
    | some d =>
      rw [h1] at h; simp only [elift_some, ebind_ok] at h
      cases h2 : core.mu_logsigma_blocks.get? l with
      | none => rw [h2] at h; simp at h
      | some blk =>
        rw [h2] at h; simp only [elift_some, ebind_ok] at h
        cases h3 : zs.get? l with
        | none => rw [h3] at h; simp at h
        | some z =>
          rw [h3] at h; simp only [elift_some, ebind_ok] at h
          cases h4 : enc.reverse.get? (l + 1) with
          | none => rw [h4] at h; simp at h
          | some sf =>
            rw [h4] at h; simp only [elift_some, ebind_ok] at h
            cases h5 : core.decoder_layers.get? l with
            | none => rw [h5] at h; simp at h
            | some stack =>
              rw [h5] at h; simp only [elift_some, ebind_ok] at h
              cases hrec : decLoop core ops rng (some zs) ml enc rest
                  (applyStack stack (tcat (resize_up (tcat z df) 2) sf)) ctr with
              | error e => rw [hrec] at h; simp at h
              | ok out' =>
                rw [hrec] at h; simp only [ebind_ok, Except.ok.injEq] at h
                rcases ih _ _ _ hrec with ⟨hu, hc⟩
                rw [← h]
                refine ⟨?_, hc⟩
                simp only [List.filterMap_cons, h3]
                rw [hu]

theorem decLoop_ok_dists_len [LinearOrderedField α] (core : HierarchicalCore α)
    (ops : Ops α) (rng : RNG α) (zq : Option (List (T4 α))) (ml : List Bool)
    (enc : List (T4 α)) (lvls : List ℕ) (df : T4 α) (ctr : ℕ)
    (out : T4 α × List (IndepNormal α) × List (T4 α) × ℕ)
    (h : decLoop core ops rng zq ml enc lvls df ctr = Except.ok out) :
    out.2.1.length = lvls.length := by
  induction lvls generalizing df ctr out with
  | nil =>
    simp only [decLoop, Except.ok.injEq] at h
    rw [← h]
    rfl
  | cons l rest ih =>
    simp only [decLoop] at h
    cases h1 : core.latent_dims.get? l with
    | none => rw [h1] at h; simp at h
    | some d =>
      rw [h1] at h; simp only [elift_some, ebind_ok] at h
      cases h2 : core.mu_logsigma_blocks.get? l with
      | none => rw [h2] at h; simp at h
      | some blk =>
        rw [h2] at h; simp only [elift_some, ebind_ok] at h
        cases hz : resolveZ rng zq ml l
            { loc := channelTake d (blk.forward df),
              scale := tmap ops.exp (channelDrop d (blk.forward df)) } ctr with
        | error e => rw [hz] at h; simp at h
        | ok zc =>
          rw [hz] at h; simp only [ebind_ok] at h
          cases h4 : enc.reverse.get? (l + 1) with
          | none => rw [h4] at h; simp at h
          | some sf =>
            rw [h4] at h; simp only [elift_some, ebind_ok] at h
            cases h5 : core.decoder_layers.get? l with
            | none => rw [h5] at h; simp at h
            | some stack =>
              rw [h5] at h; simp only [elift_some, ebind_ok] at h
              cases hrec : decLoop core ops rng zq ml enc rest
                  (applyStack stack (tcat (resize_up (tcat zc.1 df) 2) sf)) zc.2 with
              | error e => rw [hrec] at h; simp at h
              | ok out' =>
                rw [hrec] at h; simp only [ebind_ok, Except.ok.injEq] at h
                have := ih _ _ _ hrec
                rw [← h]
                simp [this]

theorem filterMap_get_range (zs : List β) (k : ℕ) (hk : k ≤ zs.length) :
    (List.range k).filterMap (fun l => zs.get? l) = zs.take k := by
  induction k with
  | zero => simp
  | succ n ih =>
    rw [List.range_succ, List.filterMap_append, ih (Nat.le_of_succ_le hk)]
    have hn : n < zs.length := Nat.lt_of_succ_le hk
    rw [List.take_succ]
    simp [List.get?_eq_getElem?, List.getElem?_eq_getElem hn]

theorem eIsOk_ebind_false {e : Except ε β} {f : β → Except ε γ}
    (h : eIsOk e = false) : eIsOk (ebind e f) = false := by
  cases e with
  | error msg => simp
  | ok x => simp at h

/-- Claim C4 (amended): constructing a Hierarchical Core with
`len(latent_dims) >= len(channels_per_block)` and at least one latent
scale fails at construction time: the decoder construction loop indexes
`channels_per_block[::-1]` out of range before any forward pass can run. -/
theorem hierarchical_core_init_fails_of_latent_ge [LinearOrderedField α] (ps : PSrc α)
    (latent_dims channels_per_block : List ℕ) (down : Option (List ℕ))
    (input_channels : ℕ) (act : α → α) (convs blocks : ℕ)
    (hge : channels_per_block.length ≤ latent_dims.length)
    (hone : 1 ≤ latent_dims.length) :
    eIsOk (HierarchicalCore.init ps latent_dims input_channels channels_per_block down
      act convs blocks) = false := by
  unfold HierarchicalCore.init
  cases henc : encInit ps act convs blocks channels_per_block
      (down.getD channels_per_block) (List.range channels_per_block.length)
      input_channels with
  | error e => simp [henc]
  | ok enc =>
    simp only [henc, ebind_ok]
    apply eIsOk_ebind_false
    set cpbRev := channels_per_block.reverse with hrev
    have hlenRev : cpbRev.length = channels_per_block.length := by
      rw [hrev]; exact List.length_reverse channels_per_block
    set lstar := channels_per_block.length - 1 with hstar
    have hmem : lstar ∈ List.range latent_dims.length := by
      rw [List.mem_range]
      omega
    apply emapM_isError hmem
    unfold decIter
    have hld : lstar < latent_dims.length := by omega
    rw [List.get?_eq_getElem?, List.getElem?_eq_getElem hld]
    simp only [elift_some, ebind_ok]
    cases hL : channels_per_block.length with
    | zero =>
      have : cpbRev.get? lstar = none := by
        rw [List.get?_eq_getElem?, List.getElem?_eq_none]
        omega
      rw [this]
      simp
    | succ n =>
      have h1 : cpbRev.get? lstar = some (cpbRev.get ⟨lstar, by omega⟩) := by
        rw [List.get?_eq_getElem?, List.getElem?_eq_getElem (by omega)]
        rfl
      rw [h1]
      simp only [elift_some, ebind_ok]
      have h2 : cpbRev.get? (lstar + 1) = none := by
        rw [List.get?_eq_getElem?, List.getElem?_eq_none]
        omega
      rw [h2]
      simp

/-- Claim C4 (counterexample): with `latent_dims = []` and
`channels_per_block = []` the hypothesis `len(latent_dims) >=
len(channels_per_block)` of the claim holds, yet `_HierarchicalCore`
constructs successfully — both construction loops run zero iterations. -/
theorem hierarchical_core_init_empty_ok :
    ([] : List ℕ).length ≥ ([] : List ℕ).length ∧
      eIsOk (HierarchicalCore.init zeroPS [] 1 [] none id 3 3) = true :=
  ⟨Nat.le.refl, rfl⟩

/-- Claim C10: when `len(latent_dims) == len(channels_per_block) - 1`
(a configuration the spec's channel-schedule invariant permits), the
Stitching Decoder's construction loop `range(start_level, num_levels)`
is empty, so `final_layer` is never created: its forward pass — and with
it every `sample` and `reconstruct` call of an orchestrator owning it —
fails with an AttributeError. -/
theorem stitching_decoder_missing_final_layer [LinearOrderedField α] [DecidableEq α]
    (ps : PSrc α) (latent_dims channels_per_block : List ℕ) (num_classes : ℕ)
    (down : Option (List ℕ)) (act : α → α) (convs blocks : ℕ)
    (hK : latent_dims.length + 1 = channels_per_block.length)
    (sd : StitchingDecoder α)
    (hinit : StitchingDecoder.init ps latent_dims channels_per_block num_classes down
      act convs blocks = Except.ok sd) :
    sd.decoder_layers = [] ∧ sd.final_layer = none ∧
      (∀ (enc : List (T4 α)) (df : T4 α),
        sd.forward enc df = Except.error "AttributeError: final_layer") ∧
      (∀ (M : HPUnet α) (ops : Ops α) (rng : RNG α) (img : T4 α) (mean : MeanFlag)
        (zq : Option (List (T4 α))) (t : T4 α), M.f_comb = sd →
        HPUnet.sample M ops rng img mean zq ≠ Except.ok t) ∧
      (∀ (M : HPUnet α) (ops : Ops α) (rng : RNG α) (img seg : T4 α) (mean : Bool)
        (out : HPUnet α × T4 α), M.f_comb = sd →
        HPUnet.reconstruct M ops rng img seg mean ≠ Except.ok out) := by
  have hempty : pyRange (latent_dims.length + 1) channels_per_block.length = [] := by
    unfold pyRange
    have h0 : channels_per_block.length - (latent_dims.length + 1) = 0 := by omega
    rw [h0]
    rfl
  unfold StitchingDecoder.init at hinit
  rw [hempty] at hinit
  simp only [sdLoop, ebind_ok, Except.ok.injEq] at hinit
  have hdl : sd.decoder_layers = [] := by rw [← hinit]
  have hfl : sd.final_layer = none := by rw [← hinit]
  have hfwd : ∀ (enc : List (T4 α)) (df : T4 α),
      sd.forward enc df = Except.error "AttributeError: final_layer" := by
    intro enc df
    unfold StitchingDecoder.forward
    rw [hdl, hfl]
    rfl
  refine ⟨hdl, hfl, hfwd, ?_, ?_⟩
  · intro M ops rng img mean zq t hM
    unfold HPUnet.sample
    cases hp : M.prior.forward ops rng M.rng_ctr img mean zq with
    | error e => simp
    | ok pr =>
      simp only [ebind_ok, hM, hfwd]
      intro hcontra
      cases hcontra
  · intro M ops rng img seg mean out hM
    unfold HPUnet.reconstruct
    cases hf : M.forward ops rng img seg with
    | error e => simp
    | ok M2 =>
      have hcomb : M2.f_comb = sd := by
        rw [(HPUnet.forward_ok_facts hf).2.2.1, hM]
      simp only [ebind_ok]
      cases hcache : (if mean then M2.p_sample_z_q_mean else M2.p_sample_z_q) with
      | none => simp
      | some pr =>
        simp only [elift_some, ebind_ok, hcomb, hfwd]
        intro hcontra
        cases hcontra

/-- Claim C5: when an external latent list is supplied to the
Hierarchical Core's forward call, the used latents at every scale are the
supplied entries verbatim (the first `len(latent_dims)` entries, in
order), no generator draw is consumed, and the `mean` flag has no effect
on any output: the call's result is identical for any two mean flags and
any two generator streams. -/
theorem core_forward_external_latents [LinearOrderedField α]
    (core : HierarchicalCore α) (ops : Ops α) (rng1 rng2 : RNG α) (ctr : ℕ)
    (inputs : T4 α) (m1 m2 : MeanFlag) (zs : List (T4 α)) :
    HierarchicalCore.forward core ops rng1 ctr inputs m1 (some zs) =
      HierarchicalCore.forward core ops rng2 ctr inputs m2 (some zs) ∧
    (∀ (res : PassResult α) (ctr2 : ℕ), core.latent_dims.length ≤ zs.length →
      HierarchicalCore.forward core ops rng1 ctr inputs m1 (some zs) =
        Except.ok (res, ctr2) →
      res.used_latents = zs.take core.latent_dims.length ∧ ctr2 = ctr) := by
  constructor
  · unfold HierarchicalCore.forward
    cases hl : (encLoop core.channels_per_block.length core.encoder_layers 0 inputs).getLast? with
    | none => rfl
    | some df0 =>
      simp only [elift_some, ebind_ok]
      rw [decLoop_external_latents core ops rng1 rng2 zs _ _
        (encLoop core.channels_per_block.length core.encoder_layers 0 inputs)
        (List.range core.latent_dims.length) df0 ctr]
  · intro res ctr2 hlen h
    unfold HierarchicalCore.forward at h
    cases hl : (encLoop core.channels_per_block.length core.encoder_layers 0 inputs).getLast? with
    | none => rw [hl] at h; simp at h
    | some df0 =>
      rw [hl] at h
      simp only [elift_some, ebind_ok] at h
      cases hd : decLoop core ops rng1 (some zs) _
          (encLoop core.channels_per_block.length core.encoder_layers 0 inputs)
          (List.range core.latent_dims.length) df0 ctr with
      | error e => rw [hd] at h; simp at h
      | ok out =>
        rw [hd] at h
        simp only [ebind_ok, Except.ok.injEq, Prod.mk.injEq] at h
        rcases decLoop_ok_external core ops rng1 zs _ _ _ _ _ _ hd with ⟨hu, hc⟩
        rcases h with ⟨hres, hctr⟩
        constructor
        · rw [← hres]
          simp only []
          rw [hu, filterMap_get_range zs core.latent_dims.length hlen]
        · rw [← hctr, hc]

/-- Claim C5 (witness): the tiny core on a concrete image with a
concrete external latent list. -/
theorem core_forward_external_latents_witness :
    coreC.latent_dims.length ≤ ([z1] : List (T4 ℚ)).length ∧
    coreC.forward qOps rng0 0 img2 (MeanFlag.single false) (some [z1]) =
      Except.ok (passC, 0) ∧
    passC.used_latents = ([z1] : List (T4 ℚ)).take coreC.latent_dims.length ∧
    coreC.forward qOps rng0 0 img2 (MeanFlag.single false) (some [z1]) =
      coreC.forward qOps rng1 0 img2 (MeanFlag.single true) (some [z1]) := by
  have hfwd : coreC.forward qOps rng0 0 img2 (MeanFlag.single false) (some [z1]) =
      Except.ok (passC, 0) := by with_unfolding_all rfl
  refine ⟨by decide, hfwd, ?_, ?_⟩
  · exact ((core_forward_external_latents coreC qOps rng0 rng1 0 img2
      (MeanFlag.single false) (MeanFlag.single true) [z1]).2 passC 0 (by decide) hfwd).1
  · exact (core_forward_external_latents coreC qOps rng0 rng1 0 img2
      (MeanFlag.single false) (MeanFlag.single true) [z1]).1

theorem core_forward_mean_true_rng_irrel [LinearOrderedField α]
    (core : HierarchicalCore α) (ops : Ops α) (rng1 rng2 : RNG α) (ctr : ℕ)
    (inputs : T4 α) :
    HierarchicalCore.forward core ops rng1 ctr inputs (MeanFlag.single true) none =
      HierarchicalCore.forward core ops rng2 ctr inputs (MeanFlag.single true) none := by
  unfold HierarchicalCore.forward
  cases hl : (encLoop core.channels_per_block.length core.encoder_layers 0 inputs).getLast? with
  | none => rfl
  | some df0 =>
    simp only [elift_some, ebind_ok]
    rw [decLoop_mean_true core ops rng1 rng2 (List.replicate core.latent_dims.length true)
      (encLoop core.channels_per_block.length core.encoder_layers 0 inputs)
      (List.range core.latent_dims.length) df0 ctr]
    intro l hl2
    rw [List.mem_range] at hl2
    rw [List.get?_eq_getElem?]
    simp [hl2]

/-- Claim C9: `sample(image, mean=True)` is deterministic — its result
does not depend on the state of the random generator, so two calls with
the identical module parameters and the identical image produce
bit-identical output. -/
theorem sample_mean_true_deterministic [LinearOrderedField α] (M : HPUnet α)
    (ops : Ops α) (rng1 rng2 : RNG α) (img : T4 α) :
    HPUnet.sample M ops rng1 img (MeanFlag.single true) none =
      HPUnet.sample M ops rng2 img (MeanFlag.single true) none := by
  unfold HPUnet.sample
  rw [core_forward_mean_true_rng_irrel M.prior ops rng1 rng2 M.rng_ctr img]

/-- Claim C2: calling the memoized paired forward pass (`forward`, the
spec's `refresh`) a second time with the bit-identical `(image, label)`
pair is a no-op — the module state after the repeated call (the cache and
all five stored pass results) equals the state after the first call — and
a subsequent `kl` or `reconstruct` call returns exactly what it would
have returned without the repeated call. -/
theorem refresh_idempotent [LinearOrderedField α] [DecidableEq α] (M : HPUnet α)
    (ops : Ops α) (rng rng2 : RNG α) (img seg : T4 α) (b : Bool) :
    ebind (HPUnet.forward M ops rng img seg)
        (fun M2 => HPUnet.forward M2 ops rng img seg) =
      HPUnet.forward M ops rng img seg ∧
    ebind (HPUnet.forward M ops rng img seg)
        (fun M2 => ebind (HPUnet.forward M2 ops rng img seg)
          (fun M3 => HPUnet.kl M3 ops rng2 img seg)) =
      ebind (HPUnet.forward M ops rng img seg)
        (fun M2 => HPUnet.kl M2 ops rng2 img seg) ∧
    ebind (HPUnet.forward M ops rng img seg)
        (fun M2 => ebind (HPUnet.forward M2 ops rng img seg)
          (fun M3 => HPUnet.reconstruct M3 ops rng2 img seg b)) =
      ebind (HPUnet.forward M ops rng img seg)
        (fun M2 => HPUnet.reconstruct M2 ops rng2 img seg b) := by
  cases h : HPUnet.forward M ops rng img seg with
  | error e => exact ⟨rfl, rfl, rfl⟩
  | ok M' =>
    have hself := HPUnet.forward_self h
    refine ⟨?_, ?_, ?_⟩ <;> simp only [ebind_ok, hself]

/-- Claim C4 (witness): one latent scale and an empty channel schedule
satisfy the amended hypotheses, and construction indeed fails. -/
theorem hierarchical_core_init_fails_witness :
    ([] : List ℕ).length ≤ ([1] : List ℕ).length ∧ 1 ≤ ([1] : List ℕ).length ∧
      eIsOk (HierarchicalCore.init zeroPS [1] 1 [] none (id : ℚ → ℚ) 3 3) = false :=
  ⟨by decide, by decide,
    hierarchical_core_init_fails_of_latent_ge zeroPS [1] [] none 1 id 3 3
      (by decide) (by decide)⟩

/-- Claim C10 (witness): the concrete degenerate configuration
`latent_dims = [1]`, `channels_per_block = [1, 1]`. -/
theorem stitching_decoder_missing_final_layer_witness :
    ([1] : List ℕ).length + 1 = ([1, 1] : List ℕ).length ∧
    StitchingDecoder.init zeroPS [1] [1, 1] 1 (some [1, 1]) (id : ℚ → ℚ) 1 1 =
      Except.ok sdC ∧
    sdC.decoder_layers = [] ∧ sdC.final_layer = none ∧
    sdC.forward [img2] img2 = Except.error "AttributeError: final_layer" ∧
    HPUnet.sample MC qOps rng0 img2 (MeanFlag.single false) none ≠ Except.ok img2 ∧
    HPUnet.reconstruct MC qOps rng0 img2 img2 false ≠ Except.ok (MC, img2) := by
  have hinit : StitchingDecoder.init zeroPS [1] [1, 1] 1 (some [1, 1]) (id : ℚ → ℚ) 1 1 =
      Except.ok sdC := by rfl
  have H := stitching_decoder_missing_final_layer zeroPS [1] [1, 1] 1 (some [1, 1])
    (id : ℚ → ℚ) 1 1 (by decide) sdC hinit
  exact ⟨by decide, hinit, H.1, H.2.1, H.2.2.1 [img2] img2,
    H.2.2.2.1 MC qOps rng0 img2 (MeanFlag.single false) none img2 rfl,
    H.2.2.2.2 MC qOps rng0 img2 img2 false (MC, img2) rfl⟩

theorem lossAssemble_ok_split [LinearOrderedField α] {kw : LossKwargs α}
    {rl : RecLossOut α} {klVals : List α} {res : List (String × PyVal α)}
    (h : lossAssemble kw rl klVals = Except.ok res) :
    kw.type = "elbo" ∧
    res = [("supervised_loss", PyVal.scalar (rl.sum + kw.beta * klVals.sum)),
      ("summaries", PyVal.strMap
        (([("rec_loss_mean", rl.mean), ("rec_loss_sum", rl.sum), ("kl_sum", klVals.sum)] ++
            (enumAux 0 klVals).map (fun p => ("kl_" ++ toString p.1, p.2))) ++
          [("elbo_loss", rl.sum + kw.beta * klVals.sum)]))] := by
  unfold lossAssemble at h
  by_cases ht : kw.type = "elbo"
  · rw [if_pos ht] at h
    simp only [Except.ok.injEq] at h
    exact ⟨ht, h.symm⟩
  · rw [if_neg ht] at h
    simp at h

theorem HPUnet.loss_ok_split [LinearOrderedField α] [DecidableEq α] {M : HPUnet α}
    {ops : Ops α} {rng : RNG α} {img seg : T4 α} {res : List (String × PyVal α)}
    (h : HPUnet.loss M ops rng img seg = Except.ok res) :
    ∃ p1 p2, HPUnet.rec_loss M ops rng img seg = Except.ok p1 ∧
      HPUnet.kl p1.1 ops rng img seg = Except.ok p2 ∧
      lossAssemble p2.1.loss_kwargs p1.2 p2.2 = Except.ok res := by
  unfold HPUnet.loss at h
  cases h1 : HPUnet.rec_loss M ops rng img seg with
  | error e => rw [h1] at h; simp at h
  | ok p1 =>
    rw [h1] at h; simp only [ebind_ok] at h
    cases h2 : HPUnet.kl p1.1 ops rng img seg with
    | error e => rw [h2] at h; simp at h
    | ok p2 =>
      rw [h2] at h; simp only [ebind_ok] at h
      exact ⟨p1, p2, rfl, h2, h⟩

theorem HPUnet.reconstruct_ok_facts [LinearOrderedField α] [DecidableEq α]
    {M : HPUnet α} {ops : Ops α} {rng : RNG α} {img seg : T4 α} {b : Bool}
    {out : HPUnet α × T4 α}
    (h : HPUnet.reconstruct M ops rng img seg b = Except.ok out) :
    ∃ M2, HPUnet.forward M ops rng img seg = Except.ok M2 ∧ out.1 = M2 := by
  unfold HPUnet.reconstruct at h
  cases h1 : HPUnet.forward M ops rng img seg with
  | error e => rw [h1] at h; simp at h
  | ok M2 =>
    rw [h1] at h; simp only [ebind_ok] at h
    cases h2 : (if b then M2.p_sample_z_q_mean else M2.p_sample_z_q) with
    | none => rw [h2] at h; simp at h
    | some pr =>
      rw [h2] at h; simp only [elift_some, ebind_ok] at h
      cases h3 : M2.f_comb.forward pr.encoder_features pr.decoder_features with
      | error e => rw [h3] at h; simp at h
      | ok logits =>
        rw [h3] at h; simp only [ebind_ok, Except.ok.injEq] at h
        exact ⟨M2, rfl, by rw [← h]⟩

theorem HPUnet.rec_loss_ok_facts [LinearOrderedField α] [DecidableEq α]
    {M : HPUnet α} {ops : Ops α} {rng : RNG α} {img seg : T4 α}
    {p1 : HPUnet α × RecLossOut α}
    (h : HPUnet.rec_loss M ops rng img seg = Except.ok p1) :
    ∃ M2, HPUnet.forward M ops rng img seg = Except.ok M2 ∧ p1.1 = M2 := by
  unfold HPUnet.rec_loss at h
  cases h1 : HPUnet.reconstruct M ops rng img seg false with
  | error e => rw [h1] at h; simp at h
  | ok out =>
    rw [h1] at h; simp only [ebind_ok, Except.ok.injEq] at h
    rcases HPUnet.reconstruct_ok_facts h1 with ⟨M2, hf, ho⟩
    exact ⟨M2, hf, by rw [← h]; exact ho⟩

theorem HPUnet.kl_ok_split [LinearOrderedField α] [DecidableEq α]
    {M : HPUnet α} {ops : Ops α} {rng : RNG α} {img seg : T4 α}
    {p2 : HPUnet α × List α}
    (h : HPUnet.kl M ops rng img seg = Except.ok p2) :
    ∃ M2 qs ps, HPUnet.forward M ops rng img seg = Except.ok M2 ∧
      M2.q_sample = some qs ∧ M2.p_sample_z_q = some ps ∧ p2.1 = M2 ∧
      p2.2 = (ps.distributions.zip qs.distributions).map
        (fun pq => klLevel ops pq.1 pq.2) := by
  unfold HPUnet.kl at h
  cases h1 : HPUnet.forward M ops rng img seg with
  | error e => rw [h1] at h; simp at h
  | ok M2 =>
    rw [h1] at h; simp only [ebind_ok] at h
    cases h2 : M2.q_sample with
    | none => rw [h2] at h; simp at h
    | some qs =>
      rw [h2] at h; simp only [elift_some, ebind_ok] at h
      cases h3 : M2.p_sample_z_q with
      | none => rw [h3] at h; simp at h
      | some ps =>
        rw [h3] at h; simp only [elift_some, ebind_ok, Except.ok.injEq] at h
        exact ⟨M2, qs, ps, rfl, h2, h3, by rw [← h], by rw [← h]⟩

theorem HPUnet.loss_kwargs_after [LinearOrderedField α] [DecidableEq α]
    {M : HPUnet α} {ops : Ops α} {rng : RNG α} {img seg : T4 α}
    {p1 : HPUnet α × RecLossOut α} {p2 : HPUnet α × List α}
    (h1 : HPUnet.rec_loss M ops rng img seg = Except.ok p1)
    (h2 : HPUnet.kl p1.1 ops rng img seg = Except.ok p2) :
    p2.1.loss_kwargs = M.loss_kwargs := by
  rcases HPUnet.rec_loss_ok_facts h1 with ⟨M2, hf, hM2⟩
  rcases HPUnet.kl_ok_split h2 with ⟨M3, qs, ps, hf2, _, _, hM3, _⟩
  have e1 : M2.loss_kwargs = M.loss_kwargs := (HPUnet.forward_ok_facts hf).2.2.2.1
  have e2 : M3.loss_kwargs = p1.1.loss_kwargs := (HPUnet.forward_ok_facts hf2).2.2.2.1
  rw [hM3, e2, hM2, e1]

theorem HPUnet.init_default_loss_kwargs [Field α] {ps : PSrc α}
    {input_channels num_classes : ℕ} {cpb down : Option (List ℕ)}
    {latent_dims : List ℕ} {convs blocks : ℕ} {act : α → α} {M0 : HPUnet α}
    (h : HierarchicalProbabilisticUnet.init ps input_channels num_classes cpb down
      latent_dims convs blocks act none = Except.ok M0) :
    M0.loss_kwargs =
      { type := "elbo", kappa := 5 / 100, decay := 99 / 100, rate := 1 / 100, beta := 1 } := by
  unfold HierarchicalProbabilisticUnet.init at h
  cases h1 : HierarchicalCore.init ps latent_dims input_channels
      (cpb.getD defaultChannelsPerBlock)
      (some (down.getD (defaultChannelsPerBlock.map (fun i => i / 2)))) act convs blocks with
  | error e => rw [h1] at h; simp at h
  | ok priorCore =>
    rw [h1] at h; simp only [ebind_ok] at h
    cases h2 : HierarchicalCore.init ps latent_dims (input_channels + num_classes)
        (cpb.getD defaultChannelsPerBlock)
        (some (down.getD (defaultChannelsPerBlock.map (fun i => i / 2)))) act convs blocks with
    | error e => rw [h2] at h; simp at h
    | ok posteriorCore =>
      rw [h2] at h; simp only [ebind_ok] at h
      cases h3 : StitchingDecoder.init ps latent_dims (cpb.getD defaultChannelsPerBlock)
          num_classes (some (down.getD (defaultChannelsPerBlock.map (fun i => i / 2))))
          act convs blocks with
      | error e => rw [h3] at h; simp at h
      | ok fComb =>
        rw [h3] at h; simp only [ebind_ok, Except.ok.injEq] at h
        rw [← h]
        rfl

/-- Claim C6: for an objective of the implemented type, the scalar under
`supervised_loss` equals the reconstruction-loss *sum* (as returned by
`rec_loss`) plus the configured `beta` times the summed per-level KL (as
returned by `kl`); the mean reconstruction term is never substituted into
the objective. Moreover a model constructed without explicit
`loss_kwargs` has `beta = 1`. -/
theorem loss_is_rec_sum_plus_beta_kl [LinearOrderedField α] [DecidableEq α]
    (M : HPUnet α) (ops : Ops α) (rng : RNG α) (img seg : T4 α)
    (res : List (String × PyVal α))
    (h : HPUnet.loss M ops rng img seg = Except.ok res) :
    (M.loss_kwargs.type = "elbo" ∧
      ∃ p1 p2, HPUnet.rec_loss M ops rng img seg = Except.ok p1 ∧
        HPUnet.kl p1.1 ops rng img seg = Except.ok p2 ∧
        res.lookup "supervised_loss" =
          some (PyVal.scalar (p1.2.sum + M.loss_kwargs.beta * p2.2.sum))) ∧
    (∀ (ps : PSrc α) (ic nc : ℕ) (cpb down : Option (List ℕ)) (ld : List ℕ)
      (cv bl : ℕ) (act : α → α) (M0 : HPUnet α),
      HierarchicalProbabilisticUnet.init ps ic nc cpb down ld cv bl act none =
        Except.ok M0 → M0.loss_kwargs.beta = 1) := by
  constructor
  · rcases HPUnet.loss_ok_split h with ⟨p1, p2, h1, h2, h3⟩
    have hkw := HPUnet.loss_kwargs_after h1 h2
    rcases lossAssemble_ok_split h3 with ⟨ht, hres⟩
    rw [hkw] at ht
    refine ⟨ht, p1, p2, h1, h2, ?_⟩
    rw [hres, hkw]
    rfl
  · intro ps ic nc cpb down ld cv bl act M0 h0
    rw [HPUnet.init_default_loss_kwargs h0]

/-- Claim C6 (witness): the tiny fixture, evaluated concretely. -/
theorem loss_is_rec_sum_plus_beta_kl_witness :
    HPUnet.loss M3 qOps rng0 img0 seg0 = Except.ok lossRes3 ∧
    (M3.loss_kwargs.type = "elbo" ∧
      ∃ p1 p2, HPUnet.rec_loss M3 qOps rng0 img0 seg0 = Except.ok p1 ∧
        HPUnet.kl p1.1 qOps rng0 img0 seg0 = Except.ok p2 ∧
        lossRes3.lookup "supervised_loss" =
          some (PyVal.scalar (p1.2.sum + M3.loss_kwargs.beta * p2.2.sum))) ∧
    M3.loss_kwargs.beta = 1 := by
  have h : HPUnet.loss M3 qOps rng0 img0 seg0 = Except.ok lossRes3 := by
    with_unfolding_all rfl
  have hinit : HierarchicalProbabilisticUnet.init zeroPS 1 1 (some [1, 1, 1])
      (some [1, 1, 1]) [1] 1 1 id none = Except.ok M3 := by
    with_unfolding_all rfl
  have H := loss_is_rec_sum_plus_beta_kl M3 qOps rng0 img0 seg0 lossRes3 h
  exact ⟨h, H.1, H.2 zeroPS 1 1 (some [1, 1, 1]) (some [1, 1, 1]) [1] 1 1 id M3 hinit⟩

/-- Claim C7: in the diagnostics mapping returned by `loss`, the entry
`kl_sum` is exactly the sum of the per-scale KL values returned by `kl`,
and each of those values is stored as the per-scale diagnostic entry
`kl_<i>`. -/
theorem kl_sum_equals_sum_of_levels [LinearOrderedField α] [DecidableEq α]
    (M : HPUnet α) (ops : Ops α) (rng : RNG α) (img seg : T4 α)
    (res : List (String × PyVal α))
    (h : HPUnet.loss M ops rng img seg = Except.ok res) :
    ∃ s klVals p1 p2,
      HPUnet.rec_loss M ops rng img seg = Except.ok p1 ∧
      HPUnet.kl p1.1 ops rng img seg = Except.ok p2 ∧ klVals = p2.2 ∧
      res.lookup "summaries" = some (PyVal.strMap s) ∧
      s.lookup "kl_sum" = some klVals.sum ∧
      ∀ (i : ℕ) (hi : i < klVals.length),
        ("kl_" ++ toString i, klVals.get ⟨i, hi⟩) ∈ s := by
  rcases HPUnet.loss_ok_split h with ⟨p1, p2, h1, h2, h3⟩
  rcases lossAssemble_ok_split h3 with ⟨ht, hres⟩
  subst hres
  refine ⟨_, p2.2, p1, p2, h1, h2, rfl, rfl, rfl, ?_⟩
  intro i hi
  apply List.mem_cons_of_mem
  apply List.mem_cons_of_mem
  apply List.mem_cons_of_mem
  apply List.mem_append_left
  refine List.mem_map.mpr ⟨(i, p2.2.get ⟨i, hi⟩), ?_, rfl⟩
  simpa using enumAux_mem p2.2 0 i hi

/-- Claim C7 (witness): the tiny fixture, evaluated concretely. -/
theorem kl_sum_equals_sum_of_levels_witness :
    HPUnet.loss M3 qOps rng0 img0 seg0 = Except.ok lossRes3 ∧
    (∃ s klVals p1 p2,
      HPUnet.rec_loss M3 qOps rng0 img0 seg0 = Except.ok p1 ∧
      HPUnet.kl p1.1 qOps rng0 img0 seg0 = Except.ok p2 ∧ klVals = p2.2 ∧
      lossRes3.lookup "summaries" = some (PyVal.strMap s) ∧
      s.lookup "kl_sum" = some klVals.sum ∧
      ∀ (i : ℕ) (hi : i < klVals.length),
        ("kl_" ++ toString i, klVals.get ⟨i, hi⟩) ∈ s) := by
  have h : HPUnet.loss M3 qOps rng0 img0 seg0 = Except.ok lossRes3 := by
    with_unfolding_all rfl
  exact ⟨h, kl_sum_equals_sum_of_levels M3 qOps rng0 img0 seg0 lossRes3 h⟩

/-- Claim C8: provided the reconstruction and KL computations themselves
succeed, `loss` raises the NotImplementedError "Loss type ... not
implemeted!" precisely when the configured objective type differs from
the implemented "elbo" objective; in particular an unrecognized type
never falls back to a default objective. -/
theorem loss_unsupported_objective [LinearOrderedField α] [DecidableEq α]
    (M : HPUnet α) (ops : Ops α) (rng : RNG α) (img seg : T4 α)
    (h : eIsOk (ebind (HPUnet.rec_loss M ops rng img seg)
      (fun p => HPUnet.kl p.1 ops rng img seg)) = true) :
    (HPUnet.loss M ops rng img seg =
        Except.error ("Loss type " ++ M.loss_kwargs.type ++ " not implemeted!")) ↔
      M.loss_kwargs.type ≠ "elbo" := by
  cases h1 : HPUnet.rec_loss M ops rng img seg with
  | error e => rw [h1] at h; simp at h
  | ok p1 =>
    rw [h1] at h; simp only [ebind_ok] at h
    cases h2 : HPUnet.kl p1.1 ops rng img seg with
    | error e => rw [h2] at h; simp at h
    | ok p2 =>
      have hkw := HPUnet.loss_kwargs_after h1 h2
      have hl : HPUnet.loss M ops rng img seg = lossAssemble p2.1.loss_kwargs p1.2 p2.2 := by
        unfold HPUnet.loss
        rw [h1]
        simp only [ebind_ok]
        rw [h2]
        simp only [ebind_ok]
      rw [hl, hkw]
      unfold lossAssemble
      by_cases ht : M.loss_kwargs.type = "elbo"
      · rw [if_pos ht]
        constructor
        · intro hcontra; simp at hcontra
        · intro hne; exact absurd ht hne
      · rw [if_neg ht]
        exact ⟨fun _ => ht, fun _ => rfl⟩

/-- Claim C8 (witness): with the "geco" type the pipeline succeeds but
`loss` raises the unsupported-objective error. -/
theorem loss_unsupported_objective_witness :
    eIsOk (ebind (HPUnet.rec_loss M4 qOps rng0 img0 seg0)
      (fun p => HPUnet.kl p.1 qOps rng0 img0 seg0)) = true ∧
    HPUnet.loss M4 qOps rng0 img0 seg0 =
      Except.error ("Loss type " ++ M4.loss_kwargs.type ++ " not implemeted!") ∧
    M4.loss_kwargs.type ≠ "elbo" := by
  have h : eIsOk (ebind (HPUnet.rec_loss M4 qOps rng0 img0 seg0)
      (fun p => HPUnet.kl p.1 qOps rng0 img0 seg0)) = true := by
    with_unfolding_all rfl
  have hne : M4.loss_kwargs.type ≠ "elbo" := by decide
  exact ⟨h, (loss_unsupported_objective M4 qOps rng0 img0 seg0 h).mpr hne, hne⟩

theorem enumAux_keys (l : List β) (f : ℕ → γ) (i : ℕ) :
    (enumAux i l).map (fun p => f p.1) = (List.range' i l.length).map f := by
  induction l generalizing i with
  | nil => rfl
  | cons x xs ih => simp [List.range'_succ, ih]

theorem HierarchicalCore.forward_ok_dists_len [LinearOrderedField α]
    {core : HierarchicalCore α} {ops : Ops α} {rng : RNG α} {ctr : ℕ}
    {inputs : T4 α} {mean : MeanFlag} {zq : Option (List (T4 α))}
    {res : PassResult α} {ctr2 : ℕ}
    (h : core.forward ops rng ctr inputs mean zq = Except.ok (res, ctr2)) :
    res.distributions.length = core.latent_dims.length := by
  unfold HierarchicalCore.forward at h
  cases hl : (encLoop core.channels_per_block.length core.encoder_layers 0 inputs).getLast? with
  | none => rw [hl] at h; simp at h
  | some df0 =>
    rw [hl] at h
    simp only [elift_some, ebind_ok] at h
    generalize (match mean with
      | MeanFlag.single b => List.replicate core.latent_dims.length b
      | MeanFlag.perScale l => l) = mf at h
    cases hd : decLoop core ops rng zq mf
        (encLoop core.channels_per_block.length core.encoder_layers 0 inputs)
        (List.range core.latent_dims.length) df0 ctr with
    | error e => rw [hd] at h; simp at h
    | ok out =>
      rw [hd] at h
      simp only [ebind_ok, Except.ok.injEq, Prod.mk.injEq] at h
      have hlen := decLoop_ok_dists_len core ops rng zq _ _ _ _ _ _ hd
      rw [List.length_range] at hlen
      rw [← h.1]
      exact hlen

/-- Claim C3 (amended): `loss` returns the dictionary under the keys
`supervised_loss` (the scalar objective) and `summaries` (the
string-keyed diagnostics); starting from a fresh cache, the diagnostics
keys are exactly `rec_loss_mean`, `rec_loss_sum`, `kl_sum`, one `kl_<i>`
per latent scale, and `elbo_loss`. -/
theorem loss_dict_keys [LinearOrderedField α] [DecidableEq α]
    (M : HPUnet α) (ops : Ops α) (rng : RNG α) (img seg : T4 α)
    (res : List (String × PyVal α))
    (hc : M.cache = none)
    (hpq : M.prior.latent_dims.length = M.posterior.latent_dims.length)
    (h : HPUnet.loss M ops rng img seg = Except.ok res) :
    res.map Prod.fst = ["supervised_loss", "summaries"] ∧
    ∃ s, res.lookup "summaries" = some (PyVal.strMap s) ∧
      s.map Prod.fst = ["rec_loss_mean", "rec_loss_sum", "kl_sum"] ++
        (List.range M.prior.latent_dims.length).map (fun i => "kl_" ++ toString i) ++
        ["elbo_loss"] := by
  rcases HPUnet.loss_ok_split h with ⟨p1, p2, h1, h2, h3⟩
  rcases lossAssemble_ok_split h3 with ⟨ht, hres⟩
  subst hres
  have hkllen : p2.2.length = M.prior.latent_dims.length := by
    rcases HPUnet.rec_loss_ok_facts h1 with ⟨M2, hf, hM2⟩
    rcases HPUnet.forward_ok_split hf with ⟨hcache, _⟩ | hrec
    · rw [hc] at hcache; cases hcache
    · rcases HPUnet.recompute_ok hrec with ⟨q1, q2, pp1, pp2, pp3, e1, e2, e3, e4, e5, hM2e⟩
      rcases HPUnet.kl_ok_split h2 with ⟨M3, qs, ps, hf2, hqs, hps, hM3, hvals⟩
      have hself : HPUnet.forward p1.1 ops rng img seg = Except.ok p1.1 := by
        unfold HPUnet.forward
        rw [hM2, hM2e]
        simp
      have hM3eq : M3 = p1.1 := by
        rw [hself] at hf2
        injection hf2 with hh
        exact hh.symm
      rw [hM3eq, hM2, hM2e] at hqs hps
      simp only at hqs hps
      have hqs2 : qs = q1.1 := by
        cases hqs; rfl
      have hps2 : ps = pp2.1 := by
        cases hps; rfl
      have e1p : M.posterior.forward ops rng M.rng_ctr (tcat img seg) (MeanFlag.single false)
          none = Except.ok (q1.1, q1.2) := by rw [e1]
      have e4p : M.prior.forward ops rng pp1.2 img (MeanFlag.single false)
          (some q1.1.used_latents) = Except.ok (pp2.1, pp2.2) := by rw [e4]
      have hlq : q1.1.distributions.length = M.posterior.latent_dims.length :=
        HierarchicalCore.forward_ok_dists_len e1p
      have hlp : pp2.1.distributions.length = M.prior.latent_dims.length :=
        HierarchicalCore.forward_ok_dists_len e4p
      rw [hvals, hqs2, hps2, List.length_map, List.length_zip, hlq, hlp, hpq]
      exact Nat.min_self _
  refine ⟨rfl, _, rfl, ?_⟩
  have hmid : ((enumAux 0 p2.2).map (fun p => ("kl_" ++ toString p.1, p.2))).map Prod.fst =
      (List.range M.prior.latent_dims.length).map (fun i => "kl_" ++ toString i) := by
    rw [List.map_map]
    have hcomp : (Prod.fst ∘ fun p : ℕ × α => ("kl_" ++ toString p.1, p.2)) =
        (fun p : ℕ × α => (fun i : ℕ => "kl_" ++ toString i) p.1) := rfl
    rw [hcomp, enumAux_keys p2.2 (fun i => "kl_" ++ toString i) 0, hkllen,
      List.range_eq_range']
  rw [List.map_append, List.map_append, hmid]
  rfl

/-- Claim C3 (counterexample): on a concrete model and image/label pair
the mapping returned by `loss` has no key `loss` and no key
`diagnostics`; its keys are `supervised_loss` and `summaries`. -/
theorem loss_dict_has_no_loss_key :
    HPUnet.loss M3 qOps rng0 img0 seg0 = Except.ok lossRes3 ∧
    lossRes3.lookup "loss" = none ∧ lossRes3.lookup "diagnostics" = none ∧
    lossRes3.map Prod.fst = ["supervised_loss", "summaries"] :=
  ⟨by with_unfolding_all rfl, by decide, by decide, by decide⟩

/-- Claim C3 (witness): the amended key structure on the tiny fixture. -/
theorem loss_dict_keys_witness :
    M3.cache = none ∧
    M3.prior.latent_dims.length = M3.posterior.latent_dims.length ∧
    HPUnet.loss M3 qOps rng0 img0 seg0 = Except.ok lossRes3 ∧
    (lossRes3.map Prod.fst = ["supervised_loss", "summaries"] ∧
      ∃ s, lossRes3.lookup "summaries" = some (PyVal.strMap s) ∧
        s.map Prod.fst = ["rec_loss_mean", "rec_loss_sum", "kl_sum"] ++
          (List.range M3.prior.latent_dims.length).map (fun i => "kl_" ++ toString i) ++
          ["elbo_loss"]) := by
  have hcache : M3.cache = none := by with_unfolding_all rfl
  have hpq : M3.prior.latent_dims.length = M3.posterior.latent_dims.length := by
    with_unfolding_all rfl
  have h : HPUnet.loss M3 qOps rng0 img0 seg0 = Except.ok lossRes3 := by
    with_unfolding_all rfl
  exact ⟨hcache, hpq, h, loss_dict_keys M3 qOps rng0 img0 seg0 lossRes3 hcache hpq h⟩

/-- Claim C1 (code evidence): `kl` computes, per level, the value
`klLevel ops p q` with the *prior* distribution `p` as the first argument
of torch's `kl_divergence` — that is KL(prior ‖ posterior) — and the
direction matters: over `ℝ` with the genuine `exp`/`log`, at a posterior
that is a standard normal and a prior of scale `e` (means equal), the two
argument orders give different values, so KL(prior ‖ posterior) is not
the Kullback-Leibler divergence of the posterior from the prior. -/
theorem kl_level_direction_matters :
    klLevel { exp := Real.exp, log := Real.log }
        { loc := [[[[(0 : ℝ)]]]], scale := [[[[1]]]] }
        { loc := [[[[(0 : ℝ)]]]], scale := [[[[Real.exp 1]]]] } ≠
      klLevel { exp := Real.exp, log := Real.log }
        { loc := [[[[(0 : ℝ)]]]], scale := [[[[Real.exp 1]]]] }
        { loc := [[[[(0 : ℝ)]]]], scale := [[[[1]]]] } := by
  simp only [klLevel, klDivergence, klPoint, tzip4, sumLastAxis, sumAxes12, meanList, tzip,
    tmap, List.zipWith, List.map, List.sum_cons, List.sum_nil, List.length_cons,
    List.length_nil]
  norm_num
  intro heq
  have h12 : Real.exp 2 = Real.exp 1 * Real.exp 1 := by
    rw [show (2 : ℝ) = 1 + 1 by norm_num, Real.exp_add]
  have hgt : (2.7182818283 : ℝ) < Real.exp 1 := Real.exp_one_gt_d9
  have hge1 : (1 : ℝ) ≤ Real.exp 2 := by nlinarith
  have hinv : (Real.exp 2)⁻¹ ≤ 1 := inv_le_one_of_one_le₀ hge1
  nlinarith

